import Mathlib

/-!
# netgen `libsrc/meshing/basegeom.hpp`: base geometry interface

A shallow embedding of the default (base-class) behaviour declared in
`basegeom.hpp`, and theorems about it.

Conventions of the embedding.

* `double` is a type parameter `R`.  Definitions only use the operations the
  source uses (`+`, `-`, `*`, and for `RestrictHTrig` a linear order);
  theorems that talk about exact arithmetic ask for `[CommRing R]`.
* `size_t` and array indices are `Nat`; C++ `int` is `Int`.  No arithmetic
  on them can overflow in the code embedded here (hashes are only compared,
  indices stay below an array size, a depth is only incremented below a
  bound).
* A C++ abstract class is a structure whose fields are the results of its
  observers.
* A `throw` is `Except.error` carrying the class of the thrown object and
  its `what()` string.  A member function with reference parameters returns
  the final values of the referents next to its result.
-/

set_option autoImplicit false

namespace netgen

/-! ## Collaborator types declared outside the header -/

/-- Modelled from the spec: `Point<3>` is declared outside `basegeom.hpp`; the
spec calls it an "exact 3D point".  Three coordinates. -/
structure Point3 (R : Type) where
  x : R
  y : R
  z : R
deriving DecidableEq, Repr

/-- Modelled from the spec: `Vec<3>` is declared outside `basegeom.hpp`; the
difference of two 3D points.  Three components. -/
structure Vec3 (R : Type) where
  x : R
  y : R
  z : R
deriving DecidableEq, Repr

/-- Modelled from the spec: `Box<3>` is declared outside `basegeom.hpp`; the
spec calls it an "axis-aligned bound".  Two corner points. -/
structure Box3 (R : Type) where
  pmin : Point3 R
  pmax : Point3 R
deriving DecidableEq, Repr

/-- Modelled from the spec: `PointGeomInfo` is declared outside
`basegeom.hpp`; "index of the face/edge plus local parameter values". -/
structure PointGeomInfo (R : Type) where
  trignum : Int
  u : R
  v : R
deriving DecidableEq, Repr

/-- Modelled from the spec: `EdgePointGeomInfo` is declared outside
`basegeom.hpp`; "index of the face/edge plus local parameter values". -/
structure EdgePointGeomInfo (R : Type) where
  edgenr : Int
  u : R
  v : R
deriving DecidableEq, Repr

section PointArithmetic

variable {R : Type}

/-- Modelled from the spec: the operator `Point<3> - Point<3>` is declared
outside `basegeom.hpp`; the `Vec<3>` from the second point to the first,
componentwise. -/
def Point3.sub [Sub R] (a b : Point3 R) : Vec3 R :=
  ⟨a.x - b.x, a.y - b.y, a.z - b.z⟩

/-- Modelled from the spec: the operator `double * Vec<3>` is declared outside
`basegeom.hpp`; scaling, componentwise. -/
def Vec3.smul [Mul R] (s : R) (v : Vec3 R) : Vec3 R :=
  ⟨s * v.x, s * v.y, s * v.z⟩

/-- Modelled from the spec: the operator `Point<3> + Vec<3>` is declared
outside `basegeom.hpp`; the translated point, componentwise. -/
def Point3.addVec [Add R] (p : Point3 R) (v : Vec3 R) : Point3 R :=
  ⟨p.x + v.x, p.y + v.y, p.z + v.z⟩

end PointArithmetic

/-! ## Exceptions -/

/-- The two exception class names the header throws. -/
inductive ExceptionClass where
  | Exception
  | NgException
deriving DecidableEq, Repr

/-- A thrown exception object: its class and its `what()` text. -/
structure Thrown where
  cls : ExceptionClass
  what : String
deriving DecidableEq, Repr

/-! ## `GeometryVertex`, `GeometryEdge` -/

/-- Embeds `class GeometryVertex`: the observers `GetPoint`, `GetHash`. -/
structure GeometryVertex (R : Type) where
  GetPoint : Point3 R
  GetHash : Nat

/-- Embeds `class GeometryEdge`: the pure virtual observers of an edge. -/
structure GeometryEdge (R : Type) where
  GetStartVertex : GeometryVertex R
  GetEndVertex : GeometryVertex R
  GetLength : R
  GetPoint : R → Point3 R
  CalcStep : R → R → R
  OrientedLikeGlobal : Bool
  GetHash : Nat

/-! ## `Mesh`, `MeshingParameters`, `GeometryFace` -/

/-- Modelled from the spec: `Mesh` is declared outside `basegeom.hpp`; a
"mutable sink for mesh-size field entries".  The size field is the sequence
of registered (position, size) entries, oldest first. -/
structure Mesh (R : Type) where
  sizeField : List (Point3 R × R)

/-- Modelled from the spec: "register a target mesh size `h` at the triangle
into the mesh-size field": one more entry of the size field. -/
def Mesh.registerSize {R : Type} (mesh : Mesh R) (p : Point3 R) (h : R) : Mesh R :=
  ⟨mesh.sizeField ++ [(p, h)]⟩

/-- Modelled from the spec: `MeshingParameters` is declared outside
`basegeom.hpp`; "read-only configuration: sag tolerance, min/max recursion
depth, min/max element size". -/
structure MeshingParameters (R : Type) where
  sag : R
  mindepth : Int
  maxdepth : Int
  minh : R
  maxh : R

/-- Embeds `class GeometryFace`: the virtual observers of a face.  A member with
reference parameters returns the final values of the referents. -/
structure GeometryFace (R : Type) where
  GetNBoundaries : Nat
  GetBoundary : Nat → Array (GeometryEdge R)
  GetName : String
  ProjectPointGI : Point3 R → PointGeomInfo R → Bool × Point3 R × PointGeomInfo R
  GetPoint : PointGeomInfo R → Point3 R
  CalcEdgePointGI : GeometryEdge R → R → EdgePointGeomInfo R → EdgePointGeomInfo R
  GetBoundingBox : Box3 R
  GetCurvature : PointGeomInfo R → R
  RestrictH : Mesh R → MeshingParameters R → Mesh R

/-- Modelled from the spec: what §4.1 names in the description of
`RestrictHTrig` and leaves open.  `deviation` is "the deviation between the
flat triangle and the true surface inside it", `subdivide` the sub-triangles
of "subdivide the triangle (typically at edge midpoints ...)", `position`
where the size is registered ("e.g., at its centroid"), `impliedSize` the
"size implied by the local sag", `childSize` the size handed to a recursive
call (from the caller-supplied one).  Each may read the face, so also the
curvature values the face reports. -/
structure SagRule (R : Type) where
  deviation : GeometryFace R → PointGeomInfo R → PointGeomInfo R → PointGeomInfo R → R
  subdivide : GeometryFace R → PointGeomInfo R → PointGeomInfo R → PointGeomInfo R →
    List (PointGeomInfo R × PointGeomInfo R × PointGeomInfo R)
  position : GeometryFace R → PointGeomInfo R → PointGeomInfo R → PointGeomInfo R → Point3 R
  impliedSize : GeometryFace R → MeshingParameters R →
    PointGeomInfo R → PointGeomInfo R → PointGeomInfo R → R
  childSize : GeometryFace R → MeshingParameters R →
    PointGeomInfo R → PointGeomInfo R → PointGeomInfo R → R → R

/-- The mesh together with the record of the recursive calls of
`RestrictHTrig` made so far: the `depth` argument of each, in call order. -/
structure RestrictHTrigRun (R : Type) where
  mesh : Mesh R
  calls : List Int

/-- Modelled from the spec: `GeometryFace::RestrictHTrig` is only declared in
`basegeom.hpp` (lines 60-65); its body lies outside the header.  After §4.1:
"If this sag exceeds the configured tolerance in `MeshingParameters` and a
maximum recursion depth has not been reached, subdivide the triangle and
recurse on the sub-triangles; otherwise, register a target mesh size `h` at
the triangle into the mesh-size field, using the greater of the
caller-supplied `h` and a size implied by the local sag."

The first argument is fuel: the number of nested calls that may be open at a
time.  Without fuel the function gives `none`; the fuel plays no part in
the decision whether to recurse. -/
def GeometryFace.RestrictHTrig {R : Type} [LinearOrder R] (rule : SagRule R)
    (self : GeometryFace R) :
    Nat → RestrictHTrigRun R → PointGeomInfo R → PointGeomInfo R → PointGeomInfo R →
      MeshingParameters R → Int → R → Option (RestrictHTrigRun R)
  | 0, _, _, _, _, _, _, _ => none
  | fuel + 1, run, gi0, gi1, gi2, mparam, depth, h =>
    if mparam.sag < rule.deviation self gi0 gi1 gi2 ∧ depth < mparam.maxdepth then
      (rule.subdivide self gi0 gi1 gi2).foldlM
        (fun acc t =>
          GeometryFace.RestrictHTrig rule self fuel ⟨acc.mesh, acc.calls ++ [depth + 1]⟩
            t.1 t.2.1 t.2.2 mparam (depth + 1)
            (rule.childSize self mparam gi0 gi1 gi2 h))
        run
    else
      some ⟨run.mesh.registerSize (rule.position self gi0 gi1 gi2)
              (max h (rule.impliedSize self mparam gi0 gi1 gi2)), run.calls⟩

/-! ## `NetgenGeometry` -/

/-- Embeds `class NetgenGeometry`: the owned collections, the bounding box, and the
(mangled) name `typeid(*this).name()` of the dynamic type of the object.  The
owned `Refinement` helper is read by no member function embedded here. -/
structure NetgenGeometry (R : Type) where
  vertices : Array (GeometryVertex R)
  edges : Array (GeometryEdge R)
  faces : Array (GeometryFace R)
  bounding_box : Box3 R
  typeidName : String

namespace NetgenGeometry

variable {R : Type}

/-- The loop of `GetEdgeIndex`, from index `i` on:
`for(auto i : Range(edges)) if(edge.GetHash() == edges[i]->GetHash()) return i;`
and, past the end of the loop, `throw Exception("Couldn't find edge index")`.
`Range`, declared outside the header, enumerates the indices `0, 1, ...,
size - 1` of the array in increasing order (the spec: "a linear scan over the
edge collection"). -/
def GetEdgeIndex.scan (edges : Array (GeometryEdge R)) (edge : GeometryEdge R)
    (i : Nat) : Except Thrown Nat :=
  if h : i < edges.size then
    if edge.GetHash = edges[i].GetHash then Except.ok i
    else GetEdgeIndex.scan edges edge (i + 1)
  else Except.error ⟨ExceptionClass.Exception, "Couldn't find edge index"⟩
termination_by edges.size - i

/-- Embeds `NetgenGeometry::GetEdgeIndex(const GeometryEdge& edge)`. -/
def GetEdgeIndex (self : NetgenGeometry R) (edge : GeometryEdge R) : Except Thrown Nat :=
  GetEdgeIndex.scan self.edges edge 0

/-! ### Default projection, tangent and point-between operations

`Demangle` is declared outside the header and is a parameter. -/

section Defaults

/-- Embeds `NetgenGeometry::DoArchive(Archive&)`:
`throw NgException("DoArchive not implemented for " + Demangle(typeid(*this).name()))`.
The archive type `A` is declared outside the header; the final value of the
referent is returned next to the result. -/
def DoArchive {A : Type} (Demangle : String → String) (self : NetgenGeometry R)
    (ar : A) : Except Thrown Unit × A :=
  (Except.error ⟨ExceptionClass.NgException,
      "DoArchive not implemented for " ++ Demangle self.typeidName⟩, ar)

/-- Embeds `NetgenGeometry::ProjectPoint(int surfind, Point<3> & p) const { }`. -/
def ProjectPoint (_self : NetgenGeometry R) (_surfind : Int) (p : Point3 R) :
    Except Thrown Unit × Point3 R :=
  (Except.ok (), p)

/-- Embeds `NetgenGeometry::ProjectPointEdge(int surfind, int surfind2, Point<3> & p) const { }`. -/
def ProjectPointEdge (_self : NetgenGeometry R) (_surfind _surfind2 : Int) (p : Point3 R) :
    Except Thrown Unit × Point3 R :=
  (Except.ok (), p)

/-- Embeds `NetgenGeometry::ProjectPointEdge(int surfind, int surfind2, Point<3> & p,
EdgePointGeomInfo& gi) const { ProjectPointEdge(surfind, surfind2, p); }`.
The call in the body is a virtual call: `dispatch` is the three-argument
`ProjectPointEdge` of the dynamic type of the object. -/
def ProjectPointEdgeGI
    (dispatch : Int → Int → Point3 R → Except Thrown Unit × Point3 R)
    (surfind surfind2 : Int) (p : Point3 R) (gi : EdgePointGeomInfo R) :
    Except Thrown Unit × Point3 R × EdgePointGeomInfo R :=
  ((dispatch surfind surfind2 p).1, (dispatch surfind surfind2 p).2, gi)

/-- Embeds `NetgenGeometry::ProjectPointGI(int surfind, Point<3> & p, PointGeomInfo & gi) const`:
`throw Exception("ProjectPointGI not overloaded in class" + Demangle(typeid(*this).name()))`. -/
def ProjectPointGI (Demangle : String → String) (self : NetgenGeometry R)
    (_surfind : Int) (p : Point3 R) (gi : PointGeomInfo R) :
    Except Thrown Bool × Point3 R × PointGeomInfo R :=
  (Except.error ⟨ExceptionClass.Exception,
      "ProjectPointGI not overloaded in class" ++ Demangle self.typeidName⟩, p, gi)

/-- Embeds `NetgenGeometry::PointBetween`: `newp = p1 + secpoint * (p2-p1);`.
`newp`, `newgi` are the values of the two output referents before the call. -/
def PointBetween [Add R] [Sub R] [Mul R] (_self : NetgenGeometry R)
    (p1 p2 : Point3 R) (secpoint : R) (_surfi : Int)
    (_gi1 _gi2 : PointGeomInfo R) (_newp : Point3 R) (newgi : PointGeomInfo R) :
    Except Thrown Unit × Point3 R × PointGeomInfo R :=
  (Except.ok (), p1.addVec (Vec3.smul secpoint (p2.sub p1)), newgi)

/-- Embeds `NetgenGeometry::PointBetweenEdge`: `newp = p1+secpoint*(p2-p1);`. -/
def PointBetweenEdge [Add R] [Sub R] [Mul R] (_self : NetgenGeometry R)
    (p1 p2 : Point3 R) (secpoint : R) (_surfi1 _surfi2 : Int)
    (_ap1 _ap2 : EdgePointGeomInfo R) (_newp : Point3 R) (newgi : EdgePointGeomInfo R) :
    Except Thrown Unit × Point3 R × EdgePointGeomInfo R :=
  (Except.ok (), p1.addVec (Vec3.smul secpoint (p2.sub p1)), newgi)

/-- Embeds `NetgenGeometry::GetTangent(p, surfi1, surfi2, egi) const`:
`throw Exception("Call GetTangent of " + Demangle(typeid(*this).name()))`. -/
def GetTangent (Demangle : String → String) (self : NetgenGeometry R)
    (_p : Point3 R) (_surfi1 _surfi2 : Int) (_egi : EdgePointGeomInfo R) :
    Except Thrown (Vec3 R) :=
  Except.error ⟨ExceptionClass.Exception, "Call GetTangent of " ++ Demangle self.typeidName⟩

end Defaults

end NetgenGeometry

/-! ## `GeometryRegister`, `GeometryRegisterArray` -/

section Register

variable {R S : Type}

/-- Embeds `class GeometryRegister`: the virtual loaders.  `S` is the state of an
`istream`; a loader given a stream returns a geometry or null (`none`)
together with the stream as it leaves it. -/
structure GeometryRegister (R S : Type) where
  Load : String → Option (NetgenGeometry R)
  LoadFromMeshFile : S → Option (NetgenGeometry R) × S

/-- Embeds `GeometryRegister::LoadFromMeshFile (istream &) const { return NULL; }`,
the default of the virtual member. -/
def GeometryRegister.LoadFromMeshFile_default (ist : S) : Option (NetgenGeometry R) × S :=
  (none, ist)

/-- A loader with its `LoadFromMeshFile` left at the default. -/
def GeometryRegister.keepDefault (r : GeometryRegister R S) : GeometryRegister R S :=
  { r with LoadFromMeshFile := GeometryRegister.LoadFromMeshFile_default }

/-- Embeds `class GeometryRegisterArray : public NgArray<GeometryRegister*>`. -/
abbrev GeometryRegisterArray (R S : Type) := Array (GeometryRegister R S)

/-- What `GeometryRegisterArray::LoadFromMeshFile` leaves behind: the returned
pointer, the stream, and the record of the indices of the loaders asked, in
the order asked. -/
structure LoadOutcome (R S : Type) where
  geometry : Option (NetgenGeometry R)
  ist : S
  asked : List Nat

/-- Modelled from the spec: the scan of `GeometryRegisterArray::LoadFromMeshFile`
from index `i` on (see below). -/
def GeometryRegisterArray.LoadFromMeshFile.scan (regs : GeometryRegisterArray R S)
    (i : Nat) (ist : S) (asked : List Nat) : LoadOutcome R S :=
  if h : i < regs.size then
    match regs[i].LoadFromMeshFile ist with
    | (some g, ist1) => ⟨some g, ist1, asked ++ [i]⟩
    | (none, ist1) => GeometryRegisterArray.LoadFromMeshFile.scan regs (i + 1) ist1 (asked ++ [i])
  else ⟨none, ist, asked⟩
termination_by regs.size - i

/-- Modelled from the spec: `GeometryRegisterArray::LoadFromMeshFile` is only
declared in `basegeom.hpp` (line 186); its body lies outside the header.
After §4.4: "each registered loader is asked in turn to load a geometry from
... an open stream; the first loader that returns a non-null geometry wins",
and §7: a loader that cannot load signals it "by returning null so the
registry can try the next loader"; with the registry exhausted the result is
null. -/
def GeometryRegisterArray.LoadFromMeshFile (self : GeometryRegisterArray R S) (ist : S) :
    LoadOutcome R S :=
  GeometryRegisterArray.LoadFromMeshFile.scan self 0 ist []

/-- The stream as the loader at index `i` finds it when the loaders before it
have all been asked. -/
def GeometryRegisterArray.streamAt (regs : GeometryRegisterArray R S) (ist : S) : Nat → S
  | 0 => ist
  | i + 1 =>
    if h : i < regs.size then
      (regs[i].LoadFromMeshFile (GeometryRegisterArray.streamAt regs ist i)).2
    else GeometryRegisterArray.streamAt regs ist i

/-- The answer of the loader at index `i`, asked after the loaders before it;
null past the end of the array. -/
def GeometryRegisterArray.answer (regs : GeometryRegisterArray R S) (ist : S) (i : Nat) :
    Option (NetgenGeometry R) :=
  if h : i < regs.size then
    (regs[i].LoadFromMeshFile (GeometryRegisterArray.streamAt regs ist i)).1
  else none

end Register

/-! ## Sample objects

Concrete vertices, edges and geometries over `Int`, at which the theorems
below are instantiated. -/

/-- A vertex at the origin with hash `h`. -/
def sampleVertex (h : Nat) : GeometryVertex Int :=
  ⟨⟨0, 0, 0⟩, h⟩

/-- A degenerate edge with hash `h`. -/
def sampleEdge (h : Nat) : GeometryEdge Int :=
  ⟨sampleVertex 0, sampleVertex 0, 0, fun _ => ⟨0, 0, 0⟩, fun t _ => t, true, h⟩

/-- A geometry whose edges have the hashes `hs`, in this order. -/
def sampleGeometry (hs : List Nat) : NetgenGeometry Int :=
  ⟨#[sampleVertex 0], (hs.map sampleEdge).toArray, #[], ⟨⟨0, 0, 0⟩, ⟨0, 0, 0⟩⟩,
    "N6netgen14NetgenGeometryE"⟩

/-- A loader that reads one item of the stream and returns null. -/
def sampleNullLoader : GeometryRegister Int Nat :=
  ⟨fun _ => none, fun ist => (none, ist + 1)⟩

/-- A loader that reads one item of the stream and returns the geometry with
edge hashes `hs`. -/
def sampleLoader (hs : List Nat) : GeometryRegister Int Nat :=
  ⟨fun _ => some (sampleGeometry hs), fun ist => (some (sampleGeometry hs), ist + 1)⟩

/-- A face over `Int` whose reported curvature at `gi` is `1000 * gi.u`. -/
def sampleFace : GeometryFace Int :=
  { GetNBoundaries := 0
    GetBoundary := fun _ => #[]
    GetName := "default"
    ProjectPointGI := fun p gi => (true, p, gi)
    GetPoint := fun gi => ⟨gi.u, gi.v, 0⟩
    CalcEdgePointGI := fun _ _ egi => egi
    GetBoundingBox := ⟨⟨0, 0, 0⟩, ⟨0, 0, 0⟩⟩
    GetCurvature := fun gi => 1000 * gi.u
    RestrictH := fun mesh _ => mesh }

/-- A rule whose deviation is the curvature at the first corner and which
splits a triangle in two. -/
def sampleRule : SagRule Int :=
  { deviation := fun face gi0 _ _ => face.GetCurvature gi0
    subdivide := fun _ gi0 gi1 gi2 => [(gi0, gi1, gi2), (gi1, gi2, gi0)]
    position := fun face gi0 _ _ => face.GetPoint gi0
    impliedSize := fun _ mparam _ _ _ => mparam.minh
    childSize := fun _ _ _ _ _ h => h }

/-- Parameters with sag tolerance 1 and maximum depth 2. -/
def sampleParameters : MeshingParameters Int :=
  ⟨1, 0, 2, 1, 10⟩

/-! # Theorems -/

/-! ## `GetEdgeIndex` -/

section EdgeIndex

variable {R : Type}

/-- A normal return of the scan started at `i`: the index is at or after `i`,
inside the array, its edge has the queried hash, and no index from `i` up to
it has. -/
theorem GetEdgeIndex.scan_ok (edges : Array (GeometryEdge R)) (edge : GeometryEdge R) :
    ∀ (n i k : Nat), edges.size - i = n →
      NetgenGeometry.GetEdgeIndex.scan edges edge i = Except.ok k →
      i ≤ k ∧ ∃ hk : k < edges.size, edges[k].GetHash = edge.GetHash ∧
        ∀ (j : Nat) (hj : j < edges.size), i ≤ j → j < k → edges[j].GetHash ≠ edge.GetHash := by
  intro n
  induction n with
  | zero =>
    intro i k hn hres
    have hge : ¬ i < edges.size := by omega
    rw [NetgenGeometry.GetEdgeIndex.scan, dif_neg hge] at hres
    cases hres
  | succ n ih =>
    intro i k hn hres
    have hlt : i < edges.size := by omega
    rw [NetgenGeometry.GetEdgeIndex.scan, dif_pos hlt] at hres
    by_cases heq : edge.GetHash = edges[i].GetHash
    · rw [if_pos heq] at hres
      cases hres
      refine ⟨le_refl _, hlt, heq.symm, ?_⟩
      intro j _ hij hji
      omega
    · rw [if_neg heq] at hres
      obtain ⟨hle, hk, hhash, hmin⟩ := ih (i + 1) k (by omega) hres
      refine ⟨by omega, hk, hhash, ?_⟩
      intro j hj hij hjk
      by_cases hji : j = i
      · subst hji
        exact fun h => heq h.symm
      · exact hmin j hj (by omega) hjk

/-- A throw of the scan started at `i`: the thrown object is the lookup
failure, and no index from `i` on holds an edge with the queried hash. -/
theorem GetEdgeIndex.scan_error (edges : Array (GeometryEdge R)) (edge : GeometryEdge R) :
    ∀ (n i : Nat) (e : Thrown), edges.size - i = n →
      NetgenGeometry.GetEdgeIndex.scan edges edge i = Except.error e →
      e = ⟨ExceptionClass.Exception, "Couldn't find edge index"⟩ ∧
        ∀ (j : Nat) (hj : j < edges.size), i ≤ j → edges[j].GetHash ≠ edge.GetHash := by
  intro n
  induction n with
  | zero =>
    intro i e hn hres
    have hge : ¬ i < edges.size := by omega
    rw [NetgenGeometry.GetEdgeIndex.scan, dif_neg hge] at hres
    cases hres
    refine ⟨rfl, ?_⟩
    intro j hj hij
    omega
  | succ n ih =>
    intro i e hn hres
    have hlt : i < edges.size := by omega
    rw [NetgenGeometry.GetEdgeIndex.scan, dif_pos hlt] at hres
    by_cases heq : edge.GetHash = edges[i].GetHash
    · rw [if_pos heq] at hres
      cases hres
    · rw [if_neg heq] at hres
      obtain ⟨he, hall⟩ := ih (i + 1) e (by omega) hres
      refine ⟨he, ?_⟩
      intro j hj hij
      by_cases hji : j = i
      · subst hji
        exact fun h => heq h.symm
      · exact hall j hj (by omega)

/-- Normal return of `GetEdgeIndex`, in full. -/
theorem GetEdgeIndex.ok_spec (geo : NetgenGeometry R) (edge : GeometryEdge R) (k : Nat)
    (h : geo.GetEdgeIndex edge = Except.ok k) :
    ∃ hk : k < geo.edges.size, geo.edges[k].GetHash = edge.GetHash ∧
      ∀ (j : Nat) (hj : j < geo.edges.size), j < k → geo.edges[j].GetHash ≠ edge.GetHash := by
  obtain ⟨_, hk, hhash, hmin⟩ := GetEdgeIndex.scan_ok geo.edges edge _ 0 k rfl h
  exact ⟨hk, hhash, fun j hj hjk => hmin j hj (Nat.zero_le _) hjk⟩

/-- Throw of `GetEdgeIndex`, in full. -/
theorem GetEdgeIndex.error_spec (geo : NetgenGeometry R) (edge : GeometryEdge R) (e : Thrown)
    (h : geo.GetEdgeIndex edge = Except.error e) :
    e = ⟨ExceptionClass.Exception, "Couldn't find edge index"⟩ ∧
      ∀ (j : Nat) (hj : j < geo.edges.size), geo.edges[j].GetHash ≠ edge.GetHash := by
  obtain ⟨he, hall⟩ := GetEdgeIndex.scan_error geo.edges edge _ 0 e rfl h
  exact ⟨he, fun j hj => hall j hj (Nat.zero_le _)⟩

/-- Lookup of a stored edge returns an index inside the collection with the
same hash. -/
theorem GetEdgeIndex_registered_aux (geo : NetgenGeometry R) (k : Nat)
    (hk : k < geo.edges.size) :
    ∃ i : Nat, geo.GetEdgeIndex geo.edges[k] = Except.ok i ∧
      ∃ hi : i < geo.edges.size, geo.edges[i].GetHash = geo.edges[k].GetHash := by
  cases hres : geo.GetEdgeIndex geo.edges[k] with
  | error e =>
    exact absurd rfl ((GetEdgeIndex.error_spec geo _ e hres).2 k hk)
  | ok i =>
    obtain ⟨hi, hhash, _⟩ := GetEdgeIndex.ok_spec geo _ i hres
    exact ⟨i, rfl, hi, hhash⟩

/-- C1: for every geometry and every edge stored in its edge collection (the
edge at a valid index `k`), `GetEdgeIndex` returns normally, with an index `i`
inside the edge collection whose edge has the same hash as the queried edge. -/
theorem GetEdgeIndex_registered (geo : NetgenGeometry R) (k : Nat) (hk : k < geo.edges.size) :
    ∃ i : Nat, geo.GetEdgeIndex geo.edges[k] = Except.ok i ∧
      ∃ hi : i < geo.edges.size, geo.edges[i].GetHash = geo.edges[k].GetHash :=
  GetEdgeIndex_registered_aux geo k hk

/-- C1 at a geometry with edge hashes 5, 7, 5 and its edge at index 2. -/
theorem GetEdgeIndex_registered_witness :
    ∃ hk : 2 < (sampleGeometry [5, 7, 5]).edges.size,
      ∃ i : Nat, (sampleGeometry [5, 7, 5]).GetEdgeIndex (sampleGeometry [5, 7, 5]).edges[2]
          = Except.ok i ∧
        ∃ hi : i < (sampleGeometry [5, 7, 5]).edges.size,
          (sampleGeometry [5, 7, 5]).edges[i].GetHash
            = (sampleGeometry [5, 7, 5]).edges[2].GetHash :=
  ⟨by decide, GetEdgeIndex_registered (sampleGeometry [5, 7, 5]) 2 (by decide)⟩

/-- C2: `GetEdgeIndex` throws the "Couldn't find edge index" exception if and
only if no edge of the edge collection has the hash of the queried edge; it
returns normally if and only if some edge has; and on an empty edge collection
it throws, whatever the queried edge. -/
theorem GetEdgeIndex_fails_iff (geo : NetgenGeometry R) (edge : GeometryEdge R) :
    (geo.GetEdgeIndex edge
        = Except.error ⟨ExceptionClass.Exception, "Couldn't find edge index"⟩ ↔
      ∀ (j : Nat) (hj : j < geo.edges.size), geo.edges[j].GetHash ≠ edge.GetHash) ∧
    ((∃ i : Nat, geo.GetEdgeIndex edge = Except.ok i) ↔
      ∃ (j : Nat) (hj : j < geo.edges.size), geo.edges[j].GetHash = edge.GetHash) ∧
    NetgenGeometry.GetEdgeIndex { geo with edges := #[] } edge
      = Except.error ⟨ExceptionClass.Exception, "Couldn't find edge index"⟩ := by
  have key : ∀ (g : NetgenGeometry R),
      (∀ (j : Nat) (hj : j < g.edges.size), g.edges[j].GetHash ≠ edge.GetHash) →
      g.GetEdgeIndex edge
        = Except.error ⟨ExceptionClass.Exception, "Couldn't find edge index"⟩ := by
    intro g hall
    cases hres : g.GetEdgeIndex edge with
    | error e => rw [(GetEdgeIndex.error_spec g edge e hres).1]
    | ok i =>
      obtain ⟨hi, hhash, _⟩ := GetEdgeIndex.ok_spec g edge i hres
      exact absurd hhash (hall i hi)
  refine ⟨⟨fun h => (GetEdgeIndex.error_spec geo edge _ h).2, key geo⟩, ⟨?_, ?_⟩, ?_⟩
  · rintro ⟨i, hres⟩
    obtain ⟨hi, hhash, _⟩ := GetEdgeIndex.ok_spec geo edge i hres
    exact ⟨i, hi, hhash⟩
  · rintro ⟨j, hj, hhash⟩
    cases hres : geo.GetEdgeIndex edge with
    | error e => exact absurd hhash ((GetEdgeIndex.error_spec geo edge e hres).2 j hj)
    | ok i => exact ⟨i, rfl⟩
  · apply key
    intro j hj
    exact absurd hj (by simp)

/-- The lookup of hash 9 among the hashes 5, 7, 5 throws the lookup failure. -/
theorem GetEdgeIndex_sample_missing :
    (sampleGeometry [5, 7, 5]).GetEdgeIndex (sampleEdge 9)
      = Except.error ⟨ExceptionClass.Exception, "Couldn't find edge index"⟩ := by
  simp [NetgenGeometry.GetEdgeIndex, NetgenGeometry.GetEdgeIndex.scan, sampleGeometry,
    sampleEdge]

/-- C3: in a geometry whose edges have pairwise distinct hashes, `GetEdgeIndex`
applied to the edge stored at a valid index `i` returns exactly `i`. -/
theorem GetEdgeIndex_index_agree (geo : NetgenGeometry R)
    (hdistinct : ∀ (i : Nat) (hi : i < geo.edges.size) (j : Nat) (hj : j < geo.edges.size),
      geo.edges[i].GetHash = geo.edges[j].GetHash → i = j)
    (i : Nat) (hi : i < geo.edges.size) :
    geo.GetEdgeIndex geo.edges[i] = Except.ok i := by
  obtain ⟨k, hres, hk, hhash⟩ := GetEdgeIndex_registered_aux geo i hi
  rw [hres, hdistinct k hk i hi hhash]

/-- C3 at a geometry with edge hashes 5, 7, 9 and index 1. -/
theorem GetEdgeIndex_index_agree_witness :
    ∃ hi : 1 < (sampleGeometry [5, 7, 9]).edges.size,
      (∀ (i : Nat) (hi : i < (sampleGeometry [5, 7, 9]).edges.size)
          (j : Nat) (hj : j < (sampleGeometry [5, 7, 9]).edges.size),
        (sampleGeometry [5, 7, 9]).edges[i].GetHash
          = (sampleGeometry [5, 7, 9]).edges[j].GetHash → i = j) ∧
      (sampleGeometry [5, 7, 9]).GetEdgeIndex (sampleGeometry [5, 7, 9]).edges[1]
        = Except.ok 1 :=
  ⟨by decide, by decide,
    GetEdgeIndex_index_agree (sampleGeometry [5, 7, 9]) (by decide) 1 (by decide)⟩

/-- C9: whenever `GetEdgeIndex` returns an index `i`, the edge at `i` has the
queried hash and no edge at an index below `i` has it: `i` is the smallest
index with that hash, whether or not later edges share the hash. -/
theorem GetEdgeIndex_smallest (geo : NetgenGeometry R) (edge : GeometryEdge R) (i : Nat)
    (h : geo.GetEdgeIndex edge = Except.ok i) :
    (∃ hi : i < geo.edges.size, geo.edges[i].GetHash = edge.GetHash) ∧
      ∀ (j : Nat) (hj : j < geo.edges.size), j < i → geo.edges[j].GetHash ≠ edge.GetHash := by
  obtain ⟨hi, hhash, hmin⟩ := GetEdgeIndex.ok_spec geo edge i h
  exact ⟨⟨hi, hhash⟩, hmin⟩

/-- The lookup of hash 7 among the hashes 5, 7, 5, 7 returns index 1. -/
theorem GetEdgeIndex_sample_shared :
    (sampleGeometry [5, 7, 5, 7]).GetEdgeIndex (sampleEdge 7) = Except.ok 1 := by
  simp [NetgenGeometry.GetEdgeIndex, NetgenGeometry.GetEdgeIndex.scan, sampleGeometry,
    sampleEdge]

/-- C9 at a geometry with edge hashes 5, 7, 5, 7, queried with hash 7: the
index returned is 1, not 3. -/
theorem GetEdgeIndex_smallest_witness :
    (sampleGeometry [5, 7, 5, 7]).GetEdgeIndex (sampleEdge 7) = Except.ok 1 ∧
    (∃ hi : 1 < (sampleGeometry [5, 7, 5, 7]).edges.size,
      (sampleGeometry [5, 7, 5, 7]).edges[1].GetHash = (sampleEdge 7).GetHash) ∧
    ∀ (j : Nat) (hj : j < (sampleGeometry [5, 7, 5, 7]).edges.size), j < 1 →
      (sampleGeometry [5, 7, 5, 7]).edges[j].GetHash ≠ (sampleEdge 7).GetHash :=
  ⟨GetEdgeIndex_sample_shared,
    GetEdgeIndex_smallest (sampleGeometry [5, 7, 5, 7]) (sampleEdge 7) 1
      GetEdgeIndex_sample_shared⟩

end EdgeIndex

/-! ## Default operations of `NetgenGeometry` -/

section DefaultOperations

variable {R : Type}

/-- C4: on a geometry that keeps the base `GetTangent` and `ProjectPointGI`,
both throw for every input.  Neither returns a value; the thrown object is an
`Exception` whose text is a fixed lead followed by the demangled name of the
dynamic type of the geometry, so the text contains that name; and
`ProjectPointGI` leaves `p` and `gi` as they were.  (The error kinds of the
spec are not types of the code: the failure of a non-overridden stub is what
the spec calls NotImplemented.) -/
theorem GetTangent_ProjectPointGI_not_implemented (Demangle : String → String)
    (geo : NetgenGeometry R) (p : Point3 R) (surfi1 surfi2 surfind : Int)
    (egi : EdgePointGeomInfo R) (gi : PointGeomInfo R) :
    (geo.GetTangent Demangle p surfi1 surfi2 egi
        = Except.error ⟨ExceptionClass.Exception,
            "Call GetTangent of " ++ Demangle geo.typeidName⟩ ∧
      (¬ ∃ v : Vec3 R, geo.GetTangent Demangle p surfi1 surfi2 egi = Except.ok v) ∧
      ∃ (e : Thrown) (lead tail : String),
        geo.GetTangent Demangle p surfi1 surfi2 egi = Except.error e ∧
        e.what = lead ++ Demangle geo.typeidName ++ tail) ∧
    ((geo.ProjectPointGI Demangle surfind p gi).1
        = Except.error ⟨ExceptionClass.Exception,
            "ProjectPointGI not overloaded in class" ++ Demangle geo.typeidName⟩ ∧
      (¬ ∃ b : Bool, (geo.ProjectPointGI Demangle surfind p gi).1 = Except.ok b) ∧
      (∃ (e : Thrown) (lead tail : String),
        (geo.ProjectPointGI Demangle surfind p gi).1 = Except.error e ∧
        e.what = lead ++ Demangle geo.typeidName ++ tail) ∧
      (geo.ProjectPointGI Demangle surfind p gi).2 = (p, gi)) := by
  refine ⟨⟨rfl, ?_, ⟨_, "Call GetTangent of ", "", rfl, ?_⟩⟩,
    ⟨rfl, ?_, ⟨_, "ProjectPointGI not overloaded in class", "", rfl, ?_⟩, rfl⟩⟩
  · rintro ⟨v, hv⟩
    simp [NetgenGeometry.GetTangent] at hv
  · simp
  · rintro ⟨b, hb⟩
    simp [NetgenGeometry.ProjectPointGI] at hb
  · simp

/-- C5: on a geometry that keeps the base `DoArchive`, the call throws for
every archive: an `NgException` whose text is "DoArchive not implemented for "
followed by the demangled name of the dynamic type of the geometry.  It never
returns normally, and the archive is left as it was. -/
theorem DoArchive_not_implemented {A : Type} (Demangle : String → String)
    (geo : NetgenGeometry R) (ar : A) :
    (geo.DoArchive Demangle ar).1
        = Except.error ⟨ExceptionClass.NgException,
            "DoArchive not implemented for " ++ Demangle geo.typeidName⟩ ∧
      (geo.DoArchive Demangle ar).1 ≠ Except.ok () ∧
      (geo.DoArchive Demangle ar).2 = ar := by
  refine ⟨rfl, ?_, rfl⟩
  simp [NetgenGeometry.DoArchive]

/-- C6: over exact arithmetic (a commutative ring), the default `PointBetween`
and `PointBetweenEdge` return normally and set `newp` to
`p1 + secpoint * (p2 - p1)`, coordinate by coordinate: `p1` at `secpoint = 0`
and `p2` at `secpoint = 1`.  The new point does not depend on the surface
indices, on the geometry infos or on the old `newp`; both operations give the
same new point; and `newgi` is left as it was. -/
theorem PointBetween_linear [CommRing R] (geo : NetgenGeometry R) (p1 p2 : Point3 R)
    (secpoint : R) (surfi surfi1 surfi2 : Int) (gi1 gi2 newgi : PointGeomInfo R)
    (ap1 ap2 newegi : EdgePointGeomInfo R) (newp newp1 : Point3 R) :
    geo.PointBetween p1 p2 secpoint surfi gi1 gi2 newp newgi
        = (Except.ok (),
            ⟨p1.x + secpoint * (p2.x - p1.x), p1.y + secpoint * (p2.y - p1.y),
              p1.z + secpoint * (p2.z - p1.z)⟩, newgi) ∧
    geo.PointBetweenEdge p1 p2 secpoint surfi1 surfi2 ap1 ap2 newp1 newegi
        = (Except.ok (),
            ⟨p1.x + secpoint * (p2.x - p1.x), p1.y + secpoint * (p2.y - p1.y),
              p1.z + secpoint * (p2.z - p1.z)⟩, newegi) ∧
    (geo.PointBetween p1 p2 secpoint surfi gi1 gi2 newp newgi).2.1
        = (geo.PointBetweenEdge p1 p2 secpoint surfi1 surfi2 ap1 ap2 newp1 newegi).2.1 ∧
    (∀ (s1 : Int) (g1 g2 g3 : PointGeomInfo R) (q : Point3 R),
      (geo.PointBetween p1 p2 secpoint s1 g1 g2 q g3).2.1
        = (geo.PointBetween p1 p2 secpoint surfi gi1 gi2 newp newgi).2.1) ∧
    (∀ (s1 s2 : Int) (a1 a2 a3 : EdgePointGeomInfo R) (q : Point3 R),
      (geo.PointBetweenEdge p1 p2 secpoint s1 s2 a1 a2 q a3).2.1
        = (geo.PointBetweenEdge p1 p2 secpoint surfi1 surfi2 ap1 ap2 newp1 newegi).2.1) ∧
    (geo.PointBetween p1 p2 0 surfi gi1 gi2 newp newgi).2.1 = p1 ∧
    (geo.PointBetween p1 p2 1 surfi gi1 gi2 newp newgi).2.1 = p2 ∧
    (geo.PointBetweenEdge p1 p2 0 surfi1 surfi2 ap1 ap2 newp1 newegi).2.1 = p1 ∧
    (geo.PointBetweenEdge p1 p2 1 surfi1 surfi2 ap1 ap2 newp1 newegi).2.1 = p2 := by
  refine ⟨rfl, rfl, rfl, fun _ _ _ _ _ => rfl, fun _ _ _ _ _ _ => rfl, ?_, ?_, ?_, ?_⟩ <;>
    simp [NetgenGeometry.PointBetween, NetgenGeometry.PointBetweenEdge, Point3.addVec,
      Vec3.smul, Point3.sub]

/-- C10: the default `ProjectPoint` and both default `ProjectPointEdge`
overloads return normally and leave the point as it was, for every surface
index pair and every point.  The overload with an `EdgePointGeomInfo` leaves
the geometry info as it was and, whatever three-argument `ProjectPointEdge`
its virtual call reaches, ends with the result and the point of that
overload. -/
theorem ProjectPoint_defaults_identity (geo : NetgenGeometry R) (surfind surfind2 : Int)
    (p : Point3 R) (gi : EdgePointGeomInfo R) :
    geo.ProjectPoint surfind p = (Except.ok (), p) ∧
    geo.ProjectPointEdge surfind surfind2 p = (Except.ok (), p) ∧
    NetgenGeometry.ProjectPointEdgeGI geo.ProjectPointEdge surfind surfind2 p gi
      = (Except.ok (), p, gi) ∧
    (NetgenGeometry.ProjectPointEdgeGI geo.ProjectPointEdge surfind surfind2 p gi).2.1
      = (geo.ProjectPointEdge surfind surfind2 p).2 ∧
    ∀ dispatch : Int → Int → Point3 R → Except Thrown Unit × Point3 R,
      (NetgenGeometry.ProjectPointEdgeGI dispatch surfind surfind2 p gi).1
          = (dispatch surfind surfind2 p).1 ∧
      (NetgenGeometry.ProjectPointEdgeGI dispatch surfind surfind2 p gi).2.1
          = (dispatch surfind surfind2 p).2 ∧
      (NetgenGeometry.ProjectPointEdgeGI dispatch surfind surfind2 p gi).2.2 = gi :=
  ⟨rfl, rfl, rfl, rfl, fun _ => ⟨rfl, rfl, rfl⟩⟩

end DefaultOperations

/-! ## `GeometryRegisterArray::LoadFromMeshFile` -/

section RegisterTheorems

variable {R S : Type}

/-- The scan started at index `i`, on the stream left by the loaders before
`i`, all of which answered null: either some loader `k` is the first with a
non-null answer and the scan returns that answer having asked `0 .. k`, or
every loader answers null and the scan returns null having asked all. -/
theorem LoadFromMeshFile.scan_spec (regs : GeometryRegisterArray R S) (ist0 : S) :
    ∀ (n i : Nat) (asked : List Nat), regs.size - i = n → i ≤ regs.size →
      (∀ j : Nat, j < i → regs.answer ist0 j = none) →
      asked = List.range i →
      (∃ (k : Nat) (g : NetgenGeometry R), k < regs.size ∧
          regs.answer ist0 k = some g ∧
          (∀ j : Nat, j < k → regs.answer ist0 j = none) ∧
          (GeometryRegisterArray.LoadFromMeshFile.scan regs i
              (regs.streamAt ist0 i) asked).geometry = some g ∧
          (GeometryRegisterArray.LoadFromMeshFile.scan regs i
              (regs.streamAt ist0 i) asked).asked = List.range (k + 1) ∧
          (GeometryRegisterArray.LoadFromMeshFile.scan regs i
              (regs.streamAt ist0 i) asked).ist = regs.streamAt ist0 (k + 1)) ∨
        ((∀ j : Nat, j < regs.size → regs.answer ist0 j = none) ∧
          (GeometryRegisterArray.LoadFromMeshFile.scan regs i
              (regs.streamAt ist0 i) asked).geometry = none ∧
          (GeometryRegisterArray.LoadFromMeshFile.scan regs i
              (regs.streamAt ist0 i) asked).asked = List.range regs.size ∧
          (GeometryRegisterArray.LoadFromMeshFile.scan regs i
              (regs.streamAt ist0 i) asked).ist = regs.streamAt ist0 regs.size) := by
  intro n
  induction n with
  | zero =>
    intro i asked hn hle hprev hasked
    have hi : i = regs.size := by omega
    have hge : ¬ i < regs.size := by omega
    right
    rw [GeometryRegisterArray.LoadFromMeshFile.scan, dif_neg hge]
    subst hasked
    refine ⟨fun j hj => hprev j (by omega), rfl, by rw [hi], by rw [hi]⟩
  | succ n ih =>
    intro i asked hn hle hprev hasked
    have hlt : i < regs.size := by omega
    have hans : regs.answer ist0 i = (regs[i].LoadFromMeshFile (regs.streamAt ist0 i)).1 := by
      simp [GeometryRegisterArray.answer, hlt]
    have hstr : regs.streamAt ist0 (i + 1)
        = (regs[i].LoadFromMeshFile (regs.streamAt ist0 i)).2 := by
      simp [GeometryRegisterArray.streamAt, hlt]
    rw [GeometryRegisterArray.LoadFromMeshFile.scan, dif_pos hlt]
    rcases hq : regs[i].LoadFromMeshFile (regs.streamAt ist0 i) with ⟨o, ist1⟩
    rw [hq] at hans hstr
    cases o with
    | some g =>
      left
      refine ⟨i, g, hlt, hans, hprev, rfl, ?_, ?_⟩
      · show asked ++ [i] = List.range (i + 1)
        rw [hasked, List.range_succ]
      · show ist1 = regs.streamAt ist0 (i + 1)
        rw [hstr]
    | none =>
      have hprev1 : ∀ j : Nat, j < i + 1 → regs.answer ist0 j = none := by
        intro j hj
        by_cases hji : j = i
        · rw [hji, hans]
        · exact hprev j (by omega)
      have hrec := ih (i + 1) (asked ++ [i]) (by omega) hlt hprev1
        (by rw [hasked, List.range_succ])
      rw [hstr] at hrec
      exact hrec

/-- The outcome of `LoadFromMeshFile`, by cases. -/
theorem LoadFromMeshFile.spec (regs : GeometryRegisterArray R S) (ist : S) :
    (∃ (k : Nat) (g : NetgenGeometry R), k < regs.size ∧
        regs.answer ist k = some g ∧
        (∀ j : Nat, j < k → regs.answer ist j = none) ∧
        (regs.LoadFromMeshFile ist).geometry = some g ∧
        (regs.LoadFromMeshFile ist).asked = List.range (k + 1)) ∨
      ((∀ j : Nat, j < regs.size → regs.answer ist j = none) ∧
        (regs.LoadFromMeshFile ist).geometry = none ∧
        (regs.LoadFromMeshFile ist).asked = List.range regs.size) := by
  have h := LoadFromMeshFile.scan_spec regs ist _ 0 [] rfl (Nat.zero_le _)
    (fun j hj => absurd hj (Nat.not_lt_zero j)) rfl
  rcases h with ⟨k, g, hk, hg, hprev, hgeo, hasked, _⟩ | ⟨hall, hgeo, hasked, _⟩
  · exact Or.inl ⟨k, g, hk, hg, hprev, hgeo, hasked⟩
  · exact Or.inr ⟨hall, hgeo, hasked⟩

/-- C7: `GeometryRegisterArray::LoadFromMeshFile` asks the loaders in
registration order (the indices asked are `0, 1, ..., k`) and returns the
answer of the first loader `k` whose answer is non-null, the loaders before it
having answered null; it returns null exactly when every registered loader
answers null (then all have been asked).  With two loaders of which the first
answers null and the second a geometry, that geometry is returned; and when
every loader keeps the default `GeometryRegister::LoadFromMeshFile`, the result
is null. -/
theorem LoadFromMeshFile_first_non_null (regs : GeometryRegisterArray R S) (ist : S) :
    ((∃ (k : Nat) (g : NetgenGeometry R), k < regs.size ∧
          regs.answer ist k = some g ∧
          (∀ j : Nat, j < k → regs.answer ist j = none) ∧
          (regs.LoadFromMeshFile ist).geometry = some g ∧
          (regs.LoadFromMeshFile ist).asked = List.range (k + 1)) ∨
        ((∀ j : Nat, j < regs.size → regs.answer ist j = none) ∧
          (regs.LoadFromMeshFile ist).geometry = none ∧
          (regs.LoadFromMeshFile ist).asked = List.range regs.size)) ∧
    ((regs.LoadFromMeshFile ist).geometry = none ↔
      ∀ j : Nat, j < regs.size → regs.answer ist j = none) ∧
    (∀ (a b : GeometryRegister R S) (g : NetgenGeometry R),
      (a.LoadFromMeshFile ist).1 = none →
      (b.LoadFromMeshFile (a.LoadFromMeshFile ist).2).1 = some g →
      (GeometryRegisterArray.LoadFromMeshFile #[a, b] ist).geometry = some g ∧
        (GeometryRegisterArray.LoadFromMeshFile #[a, b] ist).asked = [0, 1]) ∧
    (GeometryRegisterArray.LoadFromMeshFile (regs.map GeometryRegister.keepDefault) ist).geometry
      = none := by
  refine ⟨LoadFromMeshFile.spec regs ist, ⟨?_, ?_⟩, ?_, ?_⟩
  · intro hnone
    rcases LoadFromMeshFile.spec regs ist with ⟨k, g, _, _, _, hgeo, _⟩ | ⟨hall, _, _⟩
    · rw [hgeo] at hnone
      cases hnone
    · exact hall
  · intro hall
    rcases LoadFromMeshFile.spec regs ist with ⟨k, g, hk, hg, _, _, _⟩ | ⟨_, hgeo, _⟩
    · rw [hall k hk] at hg
      cases hg
    · exact hgeo
  · intro a b g ha hb
    have h0 : GeometryRegisterArray.answer #[a, b] ist 0 = none := by
      simp [GeometryRegisterArray.answer, GeometryRegisterArray.streamAt, ha]
    have h1 : GeometryRegisterArray.answer #[a, b] ist 1 = some g := by
      simp [GeometryRegisterArray.answer, GeometryRegisterArray.streamAt, hb]
    rcases LoadFromMeshFile.spec #[a, b] ist with ⟨k, g1, hk, hg, _, hgeo, hasked⟩ | ⟨hall, _, _⟩
    · have hk2 : k < 2 := hk
      have hk1 : k = 1 := by
        rcases Nat.lt_or_ge k 1 with hlt | hge
        · have hk0 : k = 0 := by omega
          rw [hk0, h0] at hg
          cases hg
        · omega
      subst hk1
      rw [h1] at hg
      cases hg
      exact ⟨hgeo, hasked⟩
    · have := hall 1 (by simp)
      rw [h1] at this
      cases this
  · rcases LoadFromMeshFile.spec (regs.map GeometryRegister.keepDefault) ist with
      ⟨k, g, hk, hg, _, _, _⟩ | ⟨_, hgeo, _⟩
    · have hk1 : k < regs.size := by simpa using hk
      simp [GeometryRegisterArray.answer, hk1, GeometryRegister.keepDefault,
        GeometryRegister.LoadFromMeshFile_default] at hg
    · exact hgeo

/-- C7 at the registry of a loader answering null and a loader answering the
geometry with edge hashes 5, 7: the second answer is returned, after both
loaders were asked in order. -/
theorem LoadFromMeshFile_first_non_null_witness :
    (sampleNullLoader.LoadFromMeshFile 0).1 = none ∧
    ((sampleLoader [5, 7]).LoadFromMeshFile (sampleNullLoader.LoadFromMeshFile 0).2).1
      = some (sampleGeometry [5, 7]) ∧
    (GeometryRegisterArray.LoadFromMeshFile #[sampleNullLoader, sampleLoader [5, 7]] 0).geometry
      = some (sampleGeometry [5, 7]) ∧
    (GeometryRegisterArray.LoadFromMeshFile #[sampleNullLoader, sampleLoader [5, 7]] 0).asked
      = [0, 1] :=
  ⟨rfl, rfl,
    (LoadFromMeshFile_first_non_null #[sampleNullLoader, sampleLoader [5, 7]] 0).2.2.1
      sampleNullLoader (sampleLoader [5, 7]) (sampleGeometry [5, 7]) rfl rfl⟩

end RegisterTheorems

/-! ## `GeometryFace::RestrictHTrig` -/

section RestrictHTrigTheorems

variable {R : Type} [LinearOrder R]

/-- With more open calls allowed than the distance of `depth` to the maximum
depth, `RestrictHTrig` returns, and every recursive call it makes is at a depth
above `depth` and at most the maximum depth. -/
theorem RestrictHTrig.returns (rule : SagRule R) (face : GeometryFace R)
    (mparam : MeshingParameters R) :
    ∀ (fuel : Nat) (run : RestrictHTrigRun R) (gi0 gi1 gi2 : PointGeomInfo R)
      (depth : Int) (h : R), (mparam.maxdepth - depth).toNat < fuel →
      ∃ r : RestrictHTrigRun R,
        face.RestrictHTrig rule fuel run gi0 gi1 gi2 mparam depth h = some r ∧
        ∃ added : List Int, r.calls = run.calls ++ added ∧
          ∀ d ∈ added, depth < d ∧ d ≤ mparam.maxdepth := by
  intro fuel
  induction fuel with
  | zero =>
    intro run gi0 gi1 gi2 depth h hfuel
    exact absurd hfuel (Nat.not_lt_zero _)
  | succ fuel ih =>
    intro run gi0 gi1 gi2 depth h hfuel
    rw [GeometryFace.RestrictHTrig]
    by_cases hc : mparam.sag < rule.deviation face gi0 gi1 gi2 ∧ depth < mparam.maxdepth
    · rw [if_pos hc]
      have hdepth : depth < mparam.maxdepth := hc.2
      have hfuel1 : (mparam.maxdepth - (depth + 1)).toNat < fuel := by omega
      generalize rule.subdivide face gi0 gi1 gi2 = ts
      generalize rule.childSize face mparam gi0 gi1 gi2 h = hc1
      induction ts generalizing run with
      | nil => exact ⟨run, rfl, [], by simp, by simp⟩
      | cons t ts iht =>
        obtain ⟨r1, hr1, add1, hcalls1, hadd1⟩ :=
          ih ⟨run.mesh, run.calls ++ [depth + 1]⟩ t.1 t.2.1 t.2.2 (depth + 1) hc1 hfuel1
        obtain ⟨r2, hr2, add2, hcalls2, hadd2⟩ := iht r1
        refine ⟨r2, ?_, (depth + 1) :: (add1 ++ add2), ?_, ?_⟩
        · rw [List.foldlM_cons, hr1]
          exact hr2
        · rw [hcalls2, hcalls1]
          simp
        · intro d hd
          rcases List.mem_cons.mp hd with hd | hd
          · subst hd
            omega
          · rcases List.mem_append.mp hd with hd | hd
            · have := hadd1 d hd
              omega
            · exact hadd2 d hd
    · rw [if_neg hc]
      exact ⟨_, rfl, [], by simp, by simp⟩

/-- What `RestrictHTrig` returns with some fuel it returns with any more. -/
theorem RestrictHTrig.fuel_mono (rule : SagRule R) (face : GeometryFace R)
    (mparam : MeshingParameters R) :
    ∀ (fuel fuel1 : Nat) (run r : RestrictHTrigRun R) (gi0 gi1 gi2 : PointGeomInfo R)
      (depth : Int) (h : R), fuel ≤ fuel1 →
      face.RestrictHTrig rule fuel run gi0 gi1 gi2 mparam depth h = some r →
      face.RestrictHTrig rule fuel1 run gi0 gi1 gi2 mparam depth h = some r := by
  intro fuel
  induction fuel with
  | zero =>
    intro fuel1 run r gi0 gi1 gi2 depth h _ hres
    rw [GeometryFace.RestrictHTrig] at hres
    cases hres
  | succ fuel ih =>
    intro fuel1 run r gi0 gi1 gi2 depth h hle hres
    obtain ⟨m, rfl⟩ : ∃ m, fuel1 = m + 1 := ⟨fuel1 - 1, by omega⟩
    rw [GeometryFace.RestrictHTrig] at hres ⊢
    by_cases hc : mparam.sag < rule.deviation face gi0 gi1 gi2 ∧ depth < mparam.maxdepth
    · rw [if_pos hc] at hres ⊢
      revert hres
      generalize rule.subdivide face gi0 gi1 gi2 = ts
      generalize rule.childSize face mparam gi0 gi1 gi2 h = hc1
      induction ts generalizing run with
      | nil => exact fun hres => hres
      | cons t ts iht =>
        intro hres
        rw [List.foldlM_cons] at hres ⊢
        cases hq : face.RestrictHTrig rule fuel ⟨run.mesh, run.calls ++ [depth + 1]⟩
            t.1 t.2.1 t.2.2 mparam (depth + 1) hc1 with
        | none =>
          rw [hq] at hres
          cases hres
        | some r1 =>
          rw [hq] at hres
          rw [ih m _ r1 _ _ _ _ _ (by omega) hq]
          exact iht r1 hres
    · rw [if_neg hc] at hres ⊢
      exact hres

/-- C8: `RestrictHTrig`, started at depth 0 on any three corners, any
parameters and any size `h` (so also the default `0.`), returns: with
`maxdepth + 1` nested calls allowed, and with any more, it gives one and the
same result.  Every recursive call made on the way is at a depth from 1 up to
the configured maximum depth, whatever deviation the rule computes from the
curvature values the face reports. -/
theorem RestrictHTrig_terminates (rule : SagRule R) (face : GeometryFace R) (mesh : Mesh R)
    (gi0 gi1 gi2 : PointGeomInfo R) (mparam : MeshingParameters R) (h : R) :
    ∃ r : RestrictHTrigRun R,
      (∀ fuel : Nat, mparam.maxdepth.toNat + 1 ≤ fuel →
        face.RestrictHTrig rule fuel ⟨mesh, []⟩ gi0 gi1 gi2 mparam 0 h = some r) ∧
      ∀ d ∈ r.calls, 0 < d ∧ d ≤ mparam.maxdepth := by
  obtain ⟨r, hr, added, hcalls, hadded⟩ :=
    RestrictHTrig.returns rule face mparam (mparam.maxdepth.toNat + 1) ⟨mesh, []⟩
      gi0 gi1 gi2 0 h (by simp)
  refine ⟨r, fun fuel hfuel => RestrictHTrig.fuel_mono rule face mparam _ fuel _ r
    gi0 gi1 gi2 0 h hfuel hr, ?_⟩
  intro d hd
  rw [hcalls] at hd
  exact hadded d (by simpa using hd)

/-- The sample run with three nested calls allowed: two calls at depth 1, each
followed by its two calls at depth 2. -/
theorem RestrictHTrig_sample_calls :
    (sampleFace.RestrictHTrig sampleRule 3 ⟨⟨[]⟩, []⟩ ⟨0, 1, 0⟩ ⟨0, 2, 0⟩ ⟨0, 3, 0⟩
      sampleParameters 0 0).map (fun r => r.calls) = some [1, 2, 2, 1, 2, 2] := by
  decide

/-- The sample run with only two nested calls allowed does not return. -/
theorem RestrictHTrig_sample_out_of_fuel :
    (sampleFace.RestrictHTrig sampleRule 2 ⟨⟨[]⟩, []⟩ ⟨0, 1, 0⟩ ⟨0, 2, 0⟩ ⟨0, 3, 0⟩
      sampleParameters 0 0).map (fun r => r.calls) = none := by
  decide

/-- C8 at the sample face, rule and parameters (maximum depth 2), on a
triangle whose deviation exceeds the tolerance at every level: with three
nested calls allowed the run returns, all recursive calls at depth 1 or 2. -/
theorem RestrictHTrig_terminates_witness :
    sampleParameters.maxdepth.toNat + 1 ≤ 3 ∧
    ∃ r : RestrictHTrigRun Int,
      sampleFace.RestrictHTrig sampleRule 3 ⟨⟨[]⟩, []⟩ ⟨0, 1, 0⟩ ⟨0, 2, 0⟩ ⟨0, 3, 0⟩
        sampleParameters 0 0 = some r ∧
      ∀ d ∈ r.calls, 0 < d ∧ d ≤ sampleParameters.maxdepth :=
  ⟨by decide,
    (RestrictHTrig_terminates sampleRule sampleFace ⟨[]⟩ ⟨0, 1, 0⟩ ⟨0, 2, 0⟩ ⟨0, 3, 0⟩
      sampleParameters 0).elim fun r hr => ⟨r, hr.1 3 (by decide), hr.2⟩⟩

end RestrictHTrigTheorems

end netgen
